import Mathlib

/-!
# Verification of the zstack-export-vdi pipeline (`src/main.py`)

A shallow embedding of the export pipeline.  External collaborators
(ZStack HTTP API, ssh, qemu-img, the filesystem) are modelled by an
oracle `World` that fixes the outcome of every external call, and the
program is embedded as a pure function from that oracle to its outcome
(success / fatal abort, i.e. `die` or an uncaught exception) together
with the ordered trace of externally visible effects it performs.

Pure helpers of the script (`get_root_install_path`, `ensure_free_space`,
`build_qemu_env`, `md5_file`, the Python `or` / truthiness idioms) are
embedded directly.  `hashlib.md5` is modelled by an executable MD5
(RFC 1321) over byte lists, with hex encoding matching `hexdigest()`.
-/

/-- Python truthiness of an optional string: `None` and `""` are falsy. -/
def pyFalsy (o : Option String) : Bool :=
  match o with
  | none => true
  | some s => s = ""

/-- Python `a or b` for an optional string `a` and a string default `b`. -/
def pyOrStr (a : Option String) (b : String) : String :=
  match a with
  | none => b
  | some s => if s = "" then b else s

/-- Python `str.lower()` on the ASCII state strings the script compares
(structurally recursive so that concrete runs reduce). -/
def String.pyLower (s : String) : String := String.mk (s.data.map Char.toLower)

/-- A volume entry of a VM inventory record (`vol.get("type")`,
`vol.get("installPath")`; absent keys are `none`). -/
structure Volume where
  type : Option String
  installPath : Option String
deriving DecidableEq, Repr

/-- A VM inventory record as consumed by the script. -/
structure VMRec where
  uuid : Option String
  name : Option String
  state : Option String
  allVolumes : List Volume
deriving DecidableEq, Repr

/-- Externally visible effects of the pipeline, in program order. -/
inductive Eff where
  | apiLogin : Eff
  | apiGetVm : String → Eff
  | apiStartVm : String → Eff
  | sleep : Nat → Eff
  | ssh : String → String → Eff
  | qemuHelp : Eff
  | qemuInfo : String → Eff
  | checkSpace : Nat → String → Eff
  | convert : String → String → String → String → Eff
  | writeFile : String → String → Eff
  | unlink : String → Eff
deriving DecidableEq, Repr

/-- Model of `ZStackClient.get_vm_by_ip` (src/main.py:104-113): the
`inventories` field of the response body (`none` models an absent or null
field, as in `data.get("inventories") or []`); zero matches yield `None`,
otherwise the first record of the returned list. -/
def get_vm_by_ip (invField : Option (List VMRec)) : Option VMRec :=
  let inventories := match invField with
    | none => []
    | some l => l
  match inventories with
  | [] => none
  | v :: _ => some v

/-- The loop of `get_root_install_path` over `vm.get("allVolumes", [])`
(src/main.py:159-163). -/
def findRootInstallPath : List Volume → Option String
  | [] => none
  | v :: rest =>
    if v.type = some "Root" then v.installPath else findRootInstallPath rest

/-- Model of `get_root_install_path(vm)` (src/main.py:159-163). -/
def get_root_install_path (vm : VMRec) : Option String :=
  findRootInstallPath vm.allVolumes

/-- Model of `ensure_free_space` (src/main.py:220-227): `true` means the check
passed, `false` means `die` was called (free bytes below the requirement). -/
def ensure_free_space (free required_bytes : Nat) : Bool :=
  if free < required_bytes then false else true

/-- Model of `build_qemu_env` (src/main.py:204-209).  `environ` is the process
environment (`os.environ`); the source copies it and only then updates
`LD_LIBRARY_PATH`, so the embedding is a pure function returning the
environment the converter is invoked with, the inherited one untouched. -/
def build_qemu_env (environ : String → Option String) (lib_path : Option String) :
    String → Option String :=
  match lib_path with
  | none => environ
  | some lp =>
    if lp = "" then environ
    else
      let existing := environ "LD_LIBRARY_PATH"
      let newVal :=
        match existing with
        | none => lp
        | some e => if e = "" then lp else lp ++ ":" ++ e
      fun k => if k = "LD_LIBRARY_PATH" then some newVal else environ k

/-- The trailing `time.sleep(settle_secs)` guarded by `if settle_secs:`
(src/main.py:174-175, 188-189). -/
def settleTrace (settle_secs : Nat) : List Eff :=
  if settle_secs ≠ 0 then [Eff.sleep settle_secs] else []

/-- The poll loop of `ensure_vm_running` (src/main.py:181-190): while the
elapsed time is below the deadline, sleep 3 seconds, re-fetch the VM by IP
(the oracle `poll` gives the `inventories` field of the i-th re-fetch), and
stop successfully when the state reads `running`.  Time is idealised: only
the sleeps advance the clock, so `elapsed` is the time consumed so far. -/
def pollLoop (poll : Nat → Option (List VMRec)) (target_ip : String)
    (max_wait settle_secs i elapsed : Nat) : Bool × List Eff :=
  if _h : elapsed < max_wait then
    match get_vm_by_ip (poll i) with
    | none =>
      let r := pollLoop poll target_ip max_wait settle_secs (i + 1) (elapsed + 3)
      (r.1, Eff.sleep 3 :: Eff.apiGetVm target_ip :: r.2)
    | some vm =>
      if (vm.state.getD "").pyLower = "running" then
        (true, Eff.sleep 3 :: Eff.apiGetVm target_ip :: settleTrace settle_secs)
      else
        let r := pollLoop poll target_ip max_wait settle_secs (i + 1) (elapsed + 3)
        (r.1, Eff.sleep 3 :: Eff.apiGetVm target_ip :: r.2)
  else (false, [])
termination_by max_wait - elapsed
decreasing_by all_goals omega

/-- Model of `ensure_vm_running` (src/main.py:171-191): `true` with the effect trace
on reaching `running`, `false` when the deadline elapses (`die`). -/
def ensure_vm_running (poll : Nat → Option (List VMRec)) (target_ip vm_uuid : String)
    (initial_state : String) (max_wait settle_secs : Nat) : Bool × List Eff :=
  if initial_state.pyLower = "running" then
    (true, settleTrace settle_secs)
  else
    let r := pollLoop poll target_ip max_wait settle_secs 0 0
    (r.1, Eff.apiStartVm vm_uuid :: r.2)

/-- The body of the `for attempt in range(1, retries + 1)` loop of
`SSHRunner.run` (src/main.py:128-150), over the list of remaining attempt numbers;
`outcome a` is whether the a-th ssh invocation exits 0.  On success the
loop returns; on failure it sleeps `retry_interval` and retries unless this
was the last attempt (`attempt < retries` fails), in which case it dies. -/
def sshRunLoop (outcome : Nat → Bool) (ip remote_cmd : String)
    (retries retry_interval : Nat) : List Nat → Bool × List Eff
  | [] => (true, [])
  | attempt :: rest =>
    if outcome attempt then (true, [Eff.ssh ip remote_cmd])
    else if attempt < retries then
      let r := sshRunLoop outcome ip remote_cmd retries retry_interval rest
      (r.1, Eff.ssh ip remote_cmd :: Eff.sleep retry_interval :: r.2)
    else (false, [Eff.ssh ip remote_cmd])

/-- Model of `SSHRunner.run` (src/main.py:127-150): run the attempt loop over
`range(1, retries + 1)`; with `retries = 0` the loop body never runs and
the call returns successfully without any attempt. -/
def SSHRunner.run (outcome : Nat → Bool) (ip remote_cmd : String)
    (retries retry_interval : Nat) : Bool × List Eff :=
  sshRunLoop outcome ip remote_cmd retries retry_interval (List.range' 1 retries)

/-! ## MD5 (model of Python `hashlib.md5`, RFC 1321) -/

/-- The constant 2^32. -/
def M32 : Nat := 4294967296

/-- Addition modulo 2^32. -/
def add32 (a b : Nat) : Nat := (a + b) % M32

/-- Complement on 32 bits. -/
def not32 (a : Nat) : Nat := a % M32 ^^^ 4294967295

/-- Left rotation on 32 bits. -/
def rotl32 (x n : Nat) : Nat := (((x % M32) <<< n) + ((x % M32) >>> (32 - n))) % M32

/-- The 64 MD5 sine-derived round constants. -/
def K64 : List Nat :=
  [0xd76aa478, 0xe8c7b756, 0x242070db, 0xc1bdceee,
   0xf57c0faf, 0x4787c62a, 0xa8304613, 0xfd469501,
   0x698098d8, 0x8b44f7af, 0xffff5bb1, 0x895cd7be,
   0x6b901122, 0xfd987193, 0xa679438e, 0x49b40821,
   0xf61e2562, 0xc040b340, 0x265e5a51, 0xe9b6c7aa,
   0xd62f105d, 0x02441453, 0xd8a1e681, 0xe7d3fbc8,
   0x21e1cde6, 0xc33707d6, 0xf4d50d87, 0x455a14ed,
   0xa9e3e905, 0xfcefa3f8, 0x676f02d9, 0x8d2a4c8a,
   0xfffa3942, 0x8771f681, 0x6d9d6122, 0xfde5380c,
   0xa4beea44, 0x4bdecfa9, 0xf6bb4b60, 0xbebfbc70,
   0x289b7ec6, 0xeaa127fa, 0xd4ef3085, 0x04881d05,
   0xd9d4d039, 0xe6db99e5, 0x1fa27cf8, 0xc4ac5665,
   0xf4292244, 0x432aff97, 0xab9423a7, 0xfc93a039,
   0x655b59c3, 0x8f0ccc92, 0xffeff47d, 0x85845dd1,
   0x6fa87e4f, 0xfe2ce6e0, 0xa3014314, 0x4e0811a1,
   0xf7537e82, 0xbd3af235, 0x2ad7d2bb, 0xeb86d391]

/-- The 64 MD5 per-round left-rotation amounts. -/
def S64 : List Nat :=
  [7, 12, 17, 22, 7, 12, 17, 22, 7, 12, 17, 22, 7, 12, 17, 22,
   5, 9, 14, 20, 5, 9, 14, 20, 5, 9, 14, 20, 5, 9, 14, 20,
   4, 11, 16, 23, 4, 11, 16, 23, 4, 11, 16, 23, 4, 11, 16, 23,
   6, 10, 15, 21, 6, 10, 15, 21, 6, 10, 15, 21, 6, 10, 15, 21]

/-- One MD5 round on the state `(a, b, c, d)`; `w` is the 16-word block. -/
def md5Step (w : Nat → Nat) (st : Nat × Nat × Nat × Nat) (i : Nat) :
    Nat × Nat × Nat × Nat :=
  let a := st.1
  let b := st.2.1
  let c := st.2.2.1
  let d := st.2.2.2
  let f :=
    if i < 16 then b &&& c ||| (not32 b &&& d)
    else if i < 32 then d &&& b ||| (not32 d &&& c)
    else if i < 48 then b ^^^ c ^^^ d
    else c ^^^ (b ||| not32 d)
  let g :=
    if i < 16 then i
    else if i < 32 then (5 * i + 1) % 16
    else if i < 48 then (3 * i + 5) % 16
    else 7 * i % 16
  let tmp := rotl32 (add32 (add32 (add32 a f) (K64.getD i 0)) (w g)) (S64.getD i 0)
  (d, add32 b tmp, b, c)

/-- The j-th little-endian 32-bit word of a 64-byte block. -/
def blockWord (block : List Nat) (j : Nat) : Nat :=
  block.getD (4 * j) 0 + 256 * block.getD (4 * j + 1) 0 +
    65536 * block.getD (4 * j + 2) 0 + 16777216 * block.getD (4 * j + 3) 0

/-- Process one 64-byte block. -/
def md5ProcessBlock (st : Nat × Nat × Nat × Nat) (block : List Nat) :
    Nat × Nat × Nat × Nat :=
  let r := (List.range 64).foldl (md5Step (blockWord block)) st
  (add32 st.1 r.1, add32 st.2.1 r.2.1, add32 st.2.2.1 r.2.2.1, add32 st.2.2.2 r.2.2.2)

/-- MD5 padding: `0x80`, zeros to 56 mod 64, then the bit length as eight
little-endian bytes. -/
def md5pad (msg : List Nat) : List Nat :=
  let len := msg.length
  let k := (119 - len % 64) % 64
  msg ++ 128 :: List.replicate k 0 ++
    (List.range 8).map fun i => 8 * len / 256 ^ i % 256

/-- Split a byte list into 64-byte chunks. -/
def chunks64 : List Nat → List (List Nat)
  | [] => []
  | x :: xs => (x :: xs).take 64 :: chunks64 ((x :: xs).drop 64)
termination_by l => l.length
decreasing_by simp; omega

/-- A 32-bit word as four little-endian bytes. -/
def wordToBytesLE (w : Nat) : List Nat :=
  [w % 256, w / 256 % 256, w / 65536 % 256, w / 16777216 % 256]

/-- The 16-byte MD5 digest of a byte list. -/
def md5Bytes (msg : List Nat) : List Nat :=
  let st := (chunks64 (md5pad msg)).foldl md5ProcessBlock
    (0x67452301, 0xefcdab89, 0x98badcfe, 0x10325476)
  wordToBytesLE st.1 ++ wordToBytesLE st.2.1 ++
    wordToBytesLE st.2.2.1 ++ wordToBytesLE st.2.2.2

/-- Lowercase hex character for a nibble (as in Python `hexdigest`). -/
def hexChar (n : Nat) : Char :=
  if n < 10 then Char.ofNat (48 + n) else Char.ofNat (87 + n)

/-- Two lowercase hex characters per byte, as in Python `hexdigest`. -/
def bytesToHexChars (l : List Nat) : List Char :=
  (l.map fun b => [hexChar (b / 16), hexChar (b % 16)]).flatten

/-- Model of `md5_file` (src/main.py:250-255): reading the file in chunks
and updating the hash equals hashing the whole byte content of the file;
the result is the lowercase hex digest. -/
def md5_file (content : List Nat) : String :=
  String.mk (bytesToHexChars (md5Bytes content))

/-! ## The `main` pipeline -/

/-- The constant `MIN_FREE_BYTES` (src/main.py:15). -/
def MIN_FREE_BYTES : Nat := 50 * 1024 * 1024 * 1024

/-- Oracle fixing every external outcome of one run of the pipeline. -/
structure World where
  workdir : String
  ip : String
  product : Option String
  sshOk : Bool
  sshpassOk : Bool
  loginUuid : Option String
  lookup : Option (List VMRec)
  poll : Nat → Option (List VMRec)
  installPathExists : Bool
  fstrimAttempt : Nat → Bool
  shutdownAttempt : Nat → Bool
  qemuIsFile : Bool
  qemuIsExec : Bool
  qemuHelpOk : Bool
  infoOk : Bool
  actualSize : Nat
  free0 : Nat
  free1 : Nat
  qcow2Exists : Bool
  vdiExists : Bool
  convert1Ok : Bool
  qcow2Size : Nat
  free2 : Nat
  convert2Ok : Bool
  vdiBytes : List Nat

/-- Model of `main` (src/main.py:274-363), as a function from the oracle to the
outcome (`true` = "flow completed", `false` = `die` or uncaught exception)
and the ordered effect trace.  `free0`/`free1`/`free2` are the free-space
readings of the three successive `shutil.disk_usage` calls; `qcow2Size` is
`qcow2_path.stat().st_size` after stage-1 conversion; `vdiBytes` is the
byte content of the produced vdi file.  (Named `mainRun` because Lean
reserves `main` for an IO entry point.) -/
def mainRun (w : World) : Bool × List Eff :=
  if w.sshOk = false then (false, []) else
  if w.sshpassOk = false then (false, []) else
  match w.loginUuid with
  | none => (false, [Eff.apiLogin])
  | some _ =>
    match get_vm_by_ip w.lookup with
    | none => (false, [Eff.apiLogin, Eff.apiGetVm w.ip])
    | some vm =>
      let t1 : List Eff := [Eff.apiLogin, Eff.apiGetVm w.ip]
      let vm_uuid := vm.uuid.getD ""
      let install_path0 := get_root_install_path vm
      let vm_state := vm.state.getD ""
      let product_name := pyOrStr w.product (pyOrStr vm.name "vm_image")
      if pyFalsy vm.uuid || pyFalsy install_path0 then (false, t1) else
      let install_path := (install_path0.getD "").trim
      if w.installPathExists = false then (false, t1) else
      let er := ensure_vm_running w.poll w.ip vm_uuid vm_state 180 20
      let t2 := t1 ++ er.2
      if er.1 = false then (false, t2) else
      let ft := SSHRunner.run w.fstrimAttempt w.ip "fstrim /" 3 30
      let t3 := t2 ++ ft.2
      if ft.1 = false then (false, t3) else
      let sd := SSHRunner.run w.shutdownAttempt w.ip "init 0" 1 30
      let t4 := t3 ++ sd.2
      if sd.1 = false then (false, t4) else
      if w.qemuIsFile = false then (false, t4) else
      if w.qemuIsExec = false then (false, t4) else
      let t5 := t4 ++ [Eff.qemuHelp]
      if w.qemuHelpOk = false then (false, t5) else
      let t6 := t5 ++ [Eff.qemuInfo install_path]
      if w.infoOk = false then (false, t6) else
      let actual_size := w.actualSize
      let t7 := t6 ++ [Eff.checkSpace MIN_FREE_BYTES "pre-export check (>=50G)"]
      if ensure_free_space w.free0 MIN_FREE_BYTES = false then (false, t7) else
      if actual_size ≠ 0 ∧ w.free1 < actual_size then (false, t7) else
      let qcow2_path := w.workdir ++ "/" ++ product_name ++ ".qcow2"
      let vdi_path := w.workdir ++ "/" ++ product_name ++ ".vdi"
      if w.qcow2Exists || w.vdiExists then (false, t7) else
      let t8 := t7 ++ [Eff.convert install_path qcow2_path "qcow2" "qcow2"]
      if w.convert1Ok = false then (false, t8) else
      let qcow2_size := w.qcow2Size
      let t9 := t8 ++ [Eff.checkSpace (max qcow2_size MIN_FREE_BYTES) "vdi conversion stage"]
      if ensure_free_space w.free2 (max qcow2_size MIN_FREE_BYTES) = false then (false, t9) else
      let t10 := t9 ++ [Eff.convert qcow2_path vdi_path "qcow2" "vdi"]
      if w.convert2Ok = false then (false, t10) else
      let vdi_md5 := md5_file w.vdiBytes
      let md5_path := vdi_path ++ ".md5"
      let t11 := t10 ++ [Eff.writeFile md5_path (vdi_md5 ++ "  " ++ (product_name ++ ".vdi") ++ "\n")]
      let t12 := t11 ++ [Eff.unlink qcow2_path]
      (true, t12)

/-! ## Event classifiers -/

/-- Is the effect a power-on request. -/
def isStart (e : Eff) : Bool :=
  match e with
  | .apiStartVm _ => true
  | _ => false

/-- Is the effect a sleep. -/
def isSleep (e : Eff) : Bool :=
  match e with
  | .sleep _ => true
  | _ => false

/-- Classifier that is `true` for effects that neither invoke a conversion nor create, modify
or delete a file (the artifact-touching effects are `convert`, `writeFile`
and `unlink`). -/
def nonArtifact (e : Eff) : Bool :=
  match e with
  | .convert _ _ _ _ => false
  | .writeFile _ _ => false
  | .unlink _ => false
  | _ => true

/-- Whether the i-th re-fetch inside the poll loop observes a VM in state
`running` (not-found responses observe nothing). -/
def observedRunning (poll : Nat → Option (List VMRec)) (i : Nat) : Bool :=
  match get_vm_by_ip (poll i) with
  | none => false
  | some vm => decide ((vm.state.getD "").pyLower = "running")

/-- The trace of `n` poll iterations: sleep 3 seconds, then re-fetch. -/
def mkPollTrace (ip : String) (n : Nat) : List Eff :=
  (List.replicate n [Eff.sleep 3, Eff.apiGetVm ip]).flatten

/-- The trace of `n` failed ssh attempts, each followed by the
inter-attempt sleep. -/
def mkSshTrace (ip cmd : String) (t n : Nat) : List Eff :=
  (List.replicate n [Eff.ssh ip cmd, Eff.sleep t]).flatten

/-- Test fixture: a poll oracle that always reports a running VM. -/
def pollRunningW : Nat → Option (List VMRec) :=
  fun _ => some [⟨some "u", some "vm1", some "Running", []⟩]

/-- The `product_name` value as computed at src/main.py:308
(`args.product or vm.get("name") or "vm_image"`). -/
def productNameOf (w : World) (vm : VMRec) : String :=
  pyOrStr w.product (pyOrStr vm.name "vm_image")

/-- The intermediate output path `workdir / f"{product_name}.qcow2"`. -/
def qcow2PathOf (w : World) (vm : VMRec) : String :=
  w.workdir ++ "/" ++ productNameOf w vm ++ ".qcow2"

/-- The final output path `workdir / f"{product_name}.vdi"`. -/
def vdiPathOf (w : World) (vm : VMRec) : String :=
  w.workdir ++ "/" ++ productNameOf w vm ++ ".vdi"

/-- The stripped root install path of the located VM (src/main.py:312). -/
def installPathOf (vm : VMRec) : String :=
  ((get_root_install_path vm).getD "").trim

/-- The stage-1 conversion effect (source → qcow2, src/main.py:342). -/
def stage1Eff (w : World) (vm : VMRec) : Eff :=
  Eff.convert (installPathOf vm) (qcow2PathOf w vm) "qcow2" "qcow2"

/-- The post-stage-1 free-space re-check effect (src/main.py:346). -/
def recheckEff (w : World) : Eff :=
  Eff.checkSpace (max w.qcow2Size MIN_FREE_BYTES) "vdi conversion stage"

/-- The stage-2 conversion effect (qcow2 → vdi, src/main.py:348). -/
def stage2Eff (w : World) (vm : VMRec) : Eff :=
  Eff.convert (qcow2PathOf w vm) (vdiPathOf w vm) "qcow2" "vdi"

/-- The md5 sidecar write effect (src/main.py:352-354). -/
def sidecarEff (w : World) (vm : VMRec) : Eff :=
  Eff.writeFile (vdiPathOf w vm ++ ".md5")
    (md5_file w.vdiBytes ++ "  " ++ (productNameOf w vm ++ ".vdi") ++ "\n")

/-- The intermediate-artifact deletion effect (src/main.py:358). -/
def unlinkEff (w : World) (vm : VMRec) : Eff :=
  Eff.unlink (qcow2PathOf w vm)

/-- Case analysis of one pipeline run, shared by several theorems: either
the run aborts without ever touching an artifact (no conversion, no file
write, no deletion), or both output-collision checks found no existing file
and the run reached stage-1 conversion, ending in one of four tail shapes
(stage-1 failed; re-check failed; stage-2 failed; full success). -/
def MasterProp (w : World) (r : Bool × List Eff) : Prop :=
  (r.1 = false ∧ ∀ e ∈ r.2, nonArtifact e = true) ∨
  (w.qcow2Exists = false ∧ w.vdiExists = false ∧
    ∃ vm pre, get_vm_by_ip w.lookup = some vm ∧
      (∀ e ∈ pre, nonArtifact e = true) ∧
      ((r.1 = false ∧ r.2 = pre ++ [stage1Eff w vm]) ∨
       (r.1 = false ∧ r.2 = pre ++ [stage1Eff w vm, recheckEff w] ∧
         ensure_free_space w.free2 (max w.qcow2Size MIN_FREE_BYTES) = false) ∨
       (ensure_free_space w.free2 (max w.qcow2Size MIN_FREE_BYTES) = true ∧
         ((r.1 = false ∧
            r.2 = pre ++ [stage1Eff w vm, recheckEff w, stage2Eff w vm]) ∨
          (r.1 = true ∧
            r.2 = pre ++ [stage1Eff w vm, recheckEff w, stage2Eff w vm,
              sidecarEff w vm, unlinkEff w vm])))))

/-- Lowercase hexadecimal characters, as produced by `hexdigest()`. -/
def isLowerHexChar (c : Char) : Prop :=
  ('0' ≤ c ∧ c ≤ '9') ∨ ('a' ≤ c ∧ c ≤ 'f')

instance (c : Char) : Decidable (isLowerHexChar c) := by
  unfold isLowerHexChar
  infer_instance

/-- Test fixture: a world in which every external step succeeds. -/
def baseWorld : World where
  workdir := "/export"
  ip := "10.0.0.5"
  product := some "prod"
  sshOk := true
  sshpassOk := true
  loginUuid := some "sess"
  lookup := some [⟨some "u", some "myvm", some "Running",
    [⟨some "Root", some "/data/vm1.img"⟩]⟩]
  poll := fun _ => none
  installPathExists := true
  fstrimAttempt := fun _ => true
  shutdownAttempt := fun _ => true
  qemuIsFile := true
  qemuIsExec := true
  qemuHelpOk := true
  infoOk := true
  actualSize := 0
  free0 := MIN_FREE_BYTES
  free1 := 0
  qcow2Exists := false
  vdiExists := false
  convert1Ok := true
  qcow2Size := 0
  free2 := MIN_FREE_BYTES
  convert2Ok := true
  vdiBytes := []

/-- Test fixture: the all-success world except that the intermediate
output file already exists at the pre-export check. -/
def collisionWorld : World := { baseWorld with qcow2Exists := true }

/-- Test fixture: the all-success world except that the located VM record
has no volume typed `Root`. -/
def noRootWorld : World :=
  { baseWorld with lookup := some [⟨some "u", some "myvm", some "Stopped", []⟩] }

/-- Test fixture: the all-success world with the product argument omitted
and the VM record lacking a display name. -/
def fallbackWorld : World :=
  { baseWorld with
    product := none
    lookup := some [⟨some "u", none, some "Running",
      [⟨some "Root", some "/data/vm1.img"⟩]⟩] }

/-! ## Helper lemmas: `get_root_install_path` -/

lemma findRootInstallPath_append (pre : List Volume) (v : Volume) (post : List Volume)
    (hpre : ∀ x ∈ pre, ¬ x.type = some "Root") (hv : v.type = some "Root") :
    findRootInstallPath (pre ++ v :: post) = v.installPath := by
  induction pre with
  | nil => simp [findRootInstallPath, hv]
  | cons x xs ih =>
    have hx : ¬ x.type = some "Root" := hpre x (by simp)
    simpa [findRootInstallPath, hx] using ih fun y hy => hpre y (by simp [hy])

lemma findRootInstallPath_none (l : List Volume)
    (h : ∀ x ∈ l, ¬ x.type = some "Root") : findRootInstallPath l = none := by
  induction l with
  | nil => rfl
  | cons x xs ih =>
    have hx : ¬ x.type = some "Root" := h x (by simp)
    simpa [findRootInstallPath, hx] using ih fun y hy => h y (by simp [hy])

/-! ## Helper lemmas: `SSHRunner.run` -/

lemma sshRunLoop_success (outcome : Nat → Bool) (ip cmd : String)
    (retries interval : Nat) :
    ∀ k a n, (∀ i, a ≤ i → i < a + k → outcome i = false) →
      outcome (a + k) = true → a + k ≤ retries → k < n →
      sshRunLoop outcome ip cmd retries interval (List.range' a n) =
        (true, mkSshTrace ip cmd interval k ++ [Eff.ssh ip cmd]) := by
  intro k
  induction k with
  | zero =>
    intro a n _ hsucc _ hn
    obtain ⟨m, rfl⟩ : ∃ m, n = m + 1 := ⟨n - 1, by omega⟩
    simp only [Nat.add_zero] at hsucc
    rw [List.range'_succ]
    simp [sshRunLoop, hsucc, mkSshTrace]
  | succ k ih =>
    intro a n hfail hsucc hle hn
    obtain ⟨m, rfl⟩ : ∃ m, n = m + 1 := ⟨n - 1, by omega⟩
    have ha : outcome a = false := hfail a (Nat.le_refl a) (by omega)
    have halt : a < retries := by omega
    rw [List.range'_succ]
    have hrec := ih (a + 1) m (fun i h1 h2 => hfail i (by omega) (by omega))
      (by rw [show a + 1 + k = a + (k + 1) by omega]; exact hsucc) (by omega)
      (by omega)
    simp only [sshRunLoop, ha, Bool.false_eq_true, if_false, halt, if_true, hrec]
    simp [mkSshTrace, List.replicate_succ]

lemma sshRunLoop_allFail (outcome : Nat → Bool) (ip cmd : String)
    (retries interval : Nat) :
    ∀ n a, 1 ≤ n → a + n = retries + 1 →
      (∀ i, a ≤ i → i ≤ retries → outcome i = false) →
      sshRunLoop outcome ip cmd retries interval (List.range' a n) =
        (false, mkSshTrace ip cmd interval (n - 1) ++ [Eff.ssh ip cmd]) := by
  intro n
  induction n with
  | zero => intro a h1 _ _; omega
  | succ m ih =>
    intro a _ heq hfail
    have ha : outcome a = false := hfail a (Nat.le_refl a) (by omega)
    rw [List.range'_succ]
    by_cases hm : m = 0
    · subst hm
      have hnl : ¬ a < retries := by omega
      simp [sshRunLoop, ha, hnl, mkSshTrace]
    · have halt : a < retries := by omega
      have hrec := ih (a + 1) (by omega) (by omega)
        (fun i h1 h2 => hfail i (by omega) h2)
      simp only [sshRunLoop, ha, Bool.false_eq_true, if_false, halt, if_true, hrec]
      obtain ⟨j, rfl⟩ : ∃ j, m = j + 1 := ⟨m - 1, by omega⟩
      simp only [Nat.add_sub_cancel]
      simp [mkSshTrace, List.replicate_succ]

lemma mkSshTrace_countP_sleep (ip cmd : String) (t n : Nat) :
    (mkSshTrace ip cmd t n ++ [Eff.ssh ip cmd]).countP isSleep = n := by
  induction n with
  | zero => simp [mkSshTrace, List.countP_cons, isSleep]
  | succ k ih =>
    simp only [mkSshTrace, List.replicate_succ, List.flatten_cons, List.cons_append,
      List.countP_cons, List.append_assoc] at *
    simp [isSleep, ih]

lemma sshRunLoop_events (outcome : Nat → Bool) (ip cmd : String)
    (retries interval : Nat) :
    ∀ l e, e ∈ (sshRunLoop outcome ip cmd retries interval l).2 →
      e = Eff.ssh ip cmd ∨ e = Eff.sleep interval := by
  intro l
  induction l with
  | nil => intro e he; simp [sshRunLoop] at he
  | cons a rest ih =>
    intro e he
    simp only [sshRunLoop] at he
    by_cases ho : outcome a
    · simp [ho] at he; simp [he]
    · by_cases halt : a < retries
      · simp only [ho, Bool.false_eq_true, if_false, halt, if_true,
          List.mem_cons] at he
        rcases he with rfl | rfl | he
        · simp
        · simp
        · exact ih e he
      · simp [ho, halt] at he; simp [he]

lemma SSHRunner_run_events (outcome : Nat → Bool) (ip cmd : String)
    (retries interval : Nat) :
    ∀ e ∈ (SSHRunner.run outcome ip cmd retries interval).2,
      e = Eff.ssh ip cmd ∨ e = Eff.sleep interval := by
  intro e he
  exact sshRunLoop_events outcome ip cmd retries interval (List.range' 1 retries) e he

/-! ## Helper lemmas: the poll loop of `ensure_vm_running` -/

lemma settleTrace_events (s : Nat) : ∀ e ∈ settleTrace s, e = Eff.sleep s := by
  intro e he
  unfold settleTrace at he
  split at he
  · simpa using he
  · simp at he

lemma pollLoop_timeout (poll : Nat → Option (List VMRec)) (ip : String)
    (max_wait settle : Nat) :
    ∀ d i elapsed, max_wait - elapsed = d →
      (∀ k, k < (d + 2) / 3 → observedRunning poll (i + k) = false) →
      pollLoop poll ip max_wait settle i elapsed =
        (false, mkPollTrace ip ((d + 2) / 3)) := by
  intro d
  induction d using Nat.strong_induction_on with
  | _ d ih =>
    intro i elapsed hd hall
    by_cases hlt : elapsed < max_wait
    · have hd1 : 1 ≤ d := by omega
      have hiter : (d + 2) / 3 = (d - 3 + 2) / 3 + 1 := by omega
      have h0 : observedRunning poll (i + 0) = false := hall 0 (by omega)
      simp only [Nat.add_zero] at h0
      have hrec := ih (d - 3) (by omega) (i + 1) (elapsed + 3) (by omega)
        (fun k hk => by
          have := hall (k + 1) (by omega)
          rwa [show i + (k + 1) = i + 1 + k by omega] at this)
      cases hp : get_vm_by_ip (poll i) with
      | none =>
        rw [pollLoop, dif_pos hlt]
        simp only [hp, hrec, hiter]
        simp [mkPollTrace, List.replicate_succ]
      | some vm =>
        have hnr : ¬ (vm.state.getD "").pyLower = "running" := by
          simpa [observedRunning, hp] using h0
        rw [pollLoop, dif_pos hlt]
        simp only [hp]
        rw [if_neg hnr]
        simp only [hrec, hiter]
        simp [mkPollTrace, List.replicate_succ]
    · have hd0 : d = 0 := by omega
      rw [pollLoop, dif_neg hlt]
      subst hd0
      simp [mkPollTrace]

lemma pollLoop_success (poll : Nat → Option (List VMRec)) (ip : String)
    (max_wait settle : Nat) :
    ∀ j i elapsed, j < (max_wait - elapsed + 2) / 3 →
      observedRunning poll (i + j) = true →
      (∀ k, k < j → observedRunning poll (i + k) = false) →
      pollLoop poll ip max_wait settle i elapsed =
        (true, mkPollTrace ip (j + 1) ++ settleTrace settle) := by
  intro j
  induction j with
  | zero =>
    intro i elapsed hj hrun _
    have hlt : elapsed < max_wait := by omega
    simp only [Nat.add_zero] at hrun
    cases hp : get_vm_by_ip (poll i) with
    | none => simp [observedRunning, hp] at hrun
    | some vm =>
      have hr : (vm.state.getD "").pyLower = "running" := by
        simpa [observedRunning, hp] using hrun
      rw [pollLoop, dif_pos hlt]
      simp only [hp]
      rw [if_pos hr]
      simp [mkPollTrace]
  | succ j ih =>
    intro i elapsed hj hrun hfail
    have hlt : elapsed < max_wait := by omega
    have h0 : observedRunning poll (i + 0) = false := hfail 0 (by omega)
    simp only [Nat.add_zero] at h0
    have hrec := ih (i + 1) (elapsed + 3) (by omega)
      (by rwa [show i + 1 + j = i + (j + 1) by omega])
      (fun k hk => by
        have := hfail (k + 1) (by omega)
        rwa [show i + (k + 1) = i + 1 + k by omega] at this)
    cases hp : get_vm_by_ip (poll i) with
    | none =>
      rw [pollLoop, dif_pos hlt]
      simp only [hp, hrec]
      simp [mkPollTrace, List.replicate_succ]
    | some vm =>
      have hnr : ¬ (vm.state.getD "").pyLower = "running" := by
        simpa [observedRunning, hp] using h0
      rw [pollLoop, dif_pos hlt]
      simp only [hp]
      rw [if_neg hnr]
      simp only [hrec]
      simp [mkPollTrace, List.replicate_succ]

lemma pollLoop_events (poll : Nat → Option (List VMRec)) (ip : String)
    (max_wait settle : Nat) :
    ∀ d i elapsed, max_wait - elapsed = d →
      ∀ e ∈ (pollLoop poll ip max_wait settle i elapsed).2,
        e = Eff.sleep 3 ∨ e = Eff.apiGetVm ip ∨ e = Eff.sleep settle := by
  intro d
  induction d using Nat.strong_induction_on with
  | _ d ih =>
    intro i elapsed hd e he
    by_cases hlt : elapsed < max_wait
    · rcases hp : get_vm_by_ip (poll i) with _ | vm
      · rw [pollLoop, dif_pos hlt] at he
        simp only [hp, List.mem_cons] at he
        rcases he with rfl | rfl | he
        · left; rfl
        · right; left; rfl
        · exact ih (d - 3) (by omega) (i + 1) (elapsed + 3) (by omega) e he
      · rw [pollLoop, dif_pos hlt] at he
        simp only [hp] at he
        by_cases hr : (vm.state.getD "").pyLower = "running"
        · rw [if_pos hr] at he
          simp only [List.mem_cons] at he
          rcases he with rfl | rfl | he
          · left; rfl
          · right; left; rfl
          · right; right; exact settleTrace_events settle e he
        · rw [if_neg hr] at he
          simp only [List.mem_cons] at he
          rcases he with rfl | rfl | he
          · left; rfl
          · right; left; rfl
          · exact ih (d - 3) (by omega) (i + 1) (elapsed + 3) (by omega) e he
    · rw [pollLoop, dif_neg hlt] at he
      simp at he

lemma ensure_vm_running_events (poll : Nat → Option (List VMRec))
    (ip uuid init : String) (max_wait settle : Nat) :
    ∀ e ∈ (ensure_vm_running poll ip uuid init max_wait settle).2,
      e = Eff.apiStartVm uuid ∨ e = Eff.sleep 3 ∨ e = Eff.apiGetVm ip ∨
        e = Eff.sleep settle := by
  intro e he
  unfold ensure_vm_running at he
  by_cases h : init.pyLower = "running"
  · rw [if_pos h] at he
    simp only at he
    right; right; right
    exact settleTrace_events settle e he
  · rw [if_neg h] at he
    simp only [List.mem_cons] at he
    rcases he with rfl | he
    · left; rfl
    · have := pollLoop_events poll ip max_wait settle (max_wait - 0) 0 0 rfl e he
      tauto

lemma ensure_vm_running_nonArtifact (poll : Nat → Option (List VMRec))
    (ip uuid init : String) (max_wait settle : Nat) :
    ∀ e ∈ (ensure_vm_running poll ip uuid init max_wait settle).2,
      nonArtifact e = true := by
  intro e he
  rcases ensure_vm_running_events poll ip uuid init max_wait settle e he with
    rfl | rfl | rfl | rfl <;> rfl

lemma SSHRunner_run_nonArtifact (outcome : Nat → Bool) (ip cmd : String)
    (retries interval : Nat) :
    ∀ e ∈ (SSHRunner.run outcome ip cmd retries interval).2,
      nonArtifact e = true := by
  intro e he
  rcases SSHRunner_run_events outcome ip cmd retries interval e he with rfl | rfl <;> rfl

/-! ## Helper lemmas: the `mainRun` case analysis -/

@[simp] lemma nonArtifact_apiLogin : nonArtifact Eff.apiLogin = true := rfl

@[simp] lemma nonArtifact_apiGetVm (s : String) :
    nonArtifact (Eff.apiGetVm s) = true := rfl

@[simp] lemma nonArtifact_apiStartVm (s : String) :
    nonArtifact (Eff.apiStartVm s) = true := rfl

@[simp] lemma nonArtifact_sleep (n : Nat) : nonArtifact (Eff.sleep n) = true := rfl

@[simp] lemma nonArtifact_ssh (a b : String) : nonArtifact (Eff.ssh a b) = true := rfl

@[simp] lemma nonArtifact_qemuHelp : nonArtifact Eff.qemuHelp = true := rfl

@[simp] lemma nonArtifact_qemuInfo (s : String) :
    nonArtifact (Eff.qemuInfo s) = true := rfl

@[simp] lemma nonArtifact_checkSpace (n : Nat) (s : String) :
    nonArtifact (Eff.checkSpace n s) = true := rfl

/-- No effect of the pipeline prefix up to (and including) the pre-export
space check touches an artifact. -/
lemma nonArtifact_pre (w : World) (vm : VMRec) :
    ∀ e ∈ ([Eff.apiLogin, Eff.apiGetVm w.ip] ++
        (ensure_vm_running w.poll w.ip (vm.uuid.getD "") (vm.state.getD "") 180 20).2 ++
        (SSHRunner.run w.fstrimAttempt w.ip "fstrim /" 3 30).2 ++
        (SSHRunner.run w.shutdownAttempt w.ip "init 0" 1 30).2 ++
        [Eff.qemuHelp] ++ [Eff.qemuInfo (((get_root_install_path vm).getD "").trim)] ++
        [Eff.checkSpace MIN_FREE_BYTES "pre-export check (>=50G)"]),
      nonArtifact e = true := by
  intro e he
  simp only [List.mem_append] at he
  rcases he with ((((((h | h) | h) | h) | h) | h) | h)
  · simp only [List.mem_cons, List.not_mem_nil, or_false] at h
    rcases h with rfl | rfl <;> rfl
  · exact ensure_vm_running_nonArtifact _ _ _ _ _ _ e h
  · exact SSHRunner_run_nonArtifact _ _ _ _ _ e h
  · exact SSHRunner_run_nonArtifact _ _ _ _ _ e h
  · simp only [List.mem_singleton] at h; subst h; rfl
  · simp only [List.mem_singleton] at h; subst h; rfl
  · simp only [List.mem_singleton] at h; subst h; rfl

/-- The master case split on one run of the pipeline. -/
lemma mainRun_master (w : World) : MasterProp w (mainRun w) := by
  unfold mainRun
  by_cases h1 : w.sshOk = false
  · rw [if_pos h1]
    exact Or.inl ⟨rfl, by simp⟩
  rw [if_neg h1]
  by_cases h2 : w.sshpassOk = false
  · rw [if_pos h2]
    exact Or.inl ⟨rfl, by simp⟩
  rw [if_neg h2]
  obtain hl | ⟨s, hl⟩ : w.loginUuid = none ∨ ∃ s, w.loginUuid = some s := by
    cases w.loginUuid
    · exact Or.inl rfl
    · exact Or.inr ⟨_, rfl⟩
  · simp only [hl]
    exact Or.inl ⟨rfl, by simp⟩
  simp only [hl]
  obtain hv | ⟨vm, hv⟩ :
      get_vm_by_ip w.lookup = none ∨ ∃ vm, get_vm_by_ip w.lookup = some vm := by
    cases get_vm_by_ip w.lookup
    · exact Or.inl rfl
    · exact Or.inr ⟨_, rfl⟩
  · simp only [hv]
    exact Or.inl ⟨rfl, by simp⟩
  simp only [hv]
  by_cases hfal : (pyFalsy vm.uuid || pyFalsy (get_root_install_path vm)) = true
  · rw [if_pos hfal]
    refine Or.inl ⟨rfl, fun e he => nonArtifact_pre w vm e ?_⟩
    simp only [List.mem_append] at he ⊢
    tauto
  rw [if_neg hfal]
  by_cases hip : w.installPathExists = false
  · rw [if_pos hip]
    refine Or.inl ⟨rfl, fun e he => nonArtifact_pre w vm e ?_⟩
    simp only [List.mem_append] at he ⊢
    tauto
  rw [if_neg hip]
  by_cases her : (ensure_vm_running w.poll w.ip (vm.uuid.getD "")
      (vm.state.getD "") 180 20).1 = false
  · rw [if_pos her]
    refine Or.inl ⟨rfl, fun e he => nonArtifact_pre w vm e ?_⟩
    simp only [List.mem_append] at he ⊢
    tauto
  rw [if_neg her]
  by_cases hft : (SSHRunner.run w.fstrimAttempt w.ip "fstrim /" 3 30).1 = false
  · rw [if_pos hft]
    refine Or.inl ⟨rfl, fun e he => nonArtifact_pre w vm e ?_⟩
    simp only [List.mem_append] at he ⊢
    tauto
  rw [if_neg hft]
  by_cases hsd : (SSHRunner.run w.shutdownAttempt w.ip "init 0" 1 30).1 = false
  · rw [if_pos hsd]
    refine Or.inl ⟨rfl, fun e he => nonArtifact_pre w vm e ?_⟩
    simp only [List.mem_append] at he ⊢
    tauto
  rw [if_neg hsd]
  by_cases hqf : w.qemuIsFile = false
  · rw [if_pos hqf]
    refine Or.inl ⟨rfl, fun e he => nonArtifact_pre w vm e ?_⟩
    simp only [List.mem_append] at he ⊢
    tauto
  rw [if_neg hqf]
  by_cases hqx : w.qemuIsExec = false
  · rw [if_pos hqx]
    refine Or.inl ⟨rfl, fun e he => nonArtifact_pre w vm e ?_⟩
    simp only [List.mem_append] at he ⊢
    tauto
  rw [if_neg hqx]
  by_cases hqh : w.qemuHelpOk = false
  · rw [if_pos hqh]
    refine Or.inl ⟨rfl, fun e he => nonArtifact_pre w vm e ?_⟩
    simp only [List.mem_append] at he ⊢
    tauto
  rw [if_neg hqh]
  by_cases hio : w.infoOk = false
  · rw [if_pos hio]
    refine Or.inl ⟨rfl, fun e he => nonArtifact_pre w vm e ?_⟩
    simp only [List.mem_append] at he ⊢
    tauto
  rw [if_neg hio]
  by_cases hf0 : ensure_free_space w.free0 MIN_FREE_BYTES = false
  · rw [if_pos hf0]
    refine Or.inl ⟨rfl, fun e he => nonArtifact_pre w vm e ?_⟩
    simp only [List.mem_append] at he ⊢
    tauto
  rw [if_neg hf0]
  by_cases has : w.actualSize ≠ 0 ∧ w.free1 < w.actualSize
  · rw [if_pos has]
    refine Or.inl ⟨rfl, fun e he => nonArtifact_pre w vm e ?_⟩
    simp only [List.mem_append] at he ⊢
    tauto
  rw [if_neg has]
  by_cases hcol : (w.qcow2Exists || w.vdiExists) = true
  · rw [if_pos hcol]
    refine Or.inl ⟨rfl, fun e he => nonArtifact_pre w vm e ?_⟩
    simp only [List.mem_append] at he ⊢
    tauto
  rw [if_neg hcol]
  have hcol2 : w.qcow2Exists = false ∧ w.vdiExists = false := by
    simpa using hcol
  by_cases hc1 : w.convert1Ok = false
  · rw [if_pos hc1]
    exact Or.inr ⟨hcol2.1, hcol2.2, vm, _, hv, nonArtifact_pre w vm,
      Or.inl ⟨rfl, rfl⟩⟩
  rw [if_neg hc1]
  by_cases hre : ensure_free_space w.free2 (max w.qcow2Size MIN_FREE_BYTES) = false
  · rw [if_pos hre]
    exact Or.inr ⟨hcol2.1, hcol2.2, vm, _, hv, nonArtifact_pre w vm,
      Or.inr (Or.inl ⟨rfl, by
        simp [stage1Eff, recheckEff, installPathOf, qcow2PathOf, productNameOf], hre⟩)⟩
  rw [if_neg hre]
  have hre2 : ensure_free_space w.free2 (max w.qcow2Size MIN_FREE_BYTES) = true := by
    simpa using hre
  by_cases hc2 : w.convert2Ok = false
  · rw [if_pos hc2]
    exact Or.inr ⟨hcol2.1, hcol2.2, vm, _, hv, nonArtifact_pre w vm,
      Or.inr (Or.inr ⟨hre2, Or.inl ⟨rfl, by
        simp [stage1Eff, recheckEff, stage2Eff, installPathOf, qcow2PathOf,
          vdiPathOf, productNameOf]⟩⟩)⟩
  rw [if_neg hc2]
  exact Or.inr ⟨hcol2.1, hcol2.2, vm, _, hv, nonArtifact_pre w vm,
    Or.inr (Or.inr ⟨hre2, Or.inr ⟨rfl, by
      simp [stage1Eff, recheckEff, stage2Eff, sidecarEff, unlinkEff, installPathOf,
        qcow2PathOf, vdiPathOf, productNameOf]⟩⟩)⟩

/-- C1: for a VM initially reported non-running, `ensure_vm_running`
issues exactly one power-on request; it then re-fetches at the fixed
3-second cadence (each iteration one 3-second sleep then one fetch).  If no
re-fetch within the 180-second deadline (60 iterations) observes `running`,
it fails with the timeout `die`, never having issued a second power-on; if
the first `running` observation is the j-th re-fetch, it sleeps the settle
duration (20 s) and returns successfully. -/
theorem ensure_vm_running_poll_spec (poll : Nat → Option (List VMRec))
    (ip uuid init : String) (hinit : ¬ init.pyLower = "running") :
    (ensure_vm_running poll ip uuid init 180 20).2.countP isStart = 1 ∧
    ((∀ i, i < 60 → observedRunning poll i = false) →
      ensure_vm_running poll ip uuid init 180 20 =
        (false, Eff.apiStartVm uuid :: mkPollTrace ip 60)) ∧
    (∀ j, j < 60 → observedRunning poll j = true →
      (∀ i, i < j → observedRunning poll i = false) →
      ensure_vm_running poll ip uuid init 180 20 =
        (true, Eff.apiStartVm uuid :: (mkPollTrace ip (j + 1) ++ [Eff.sleep 20]))) := by
  refine ⟨?_, ?_, ?_⟩
  · unfold ensure_vm_running
    rw [if_neg hinit]
    have h0 : (pollLoop poll ip 180 20 0 0).2.countP isStart = 0 := by
      rw [List.countP_eq_zero]
      intro e he
      rcases pollLoop_events poll ip 180 20 180 0 0 rfl e he with rfl | rfl | rfl <;>
        simp [isStart]
    simp [List.countP_cons, h0, isStart]
  · intro hall
    unfold ensure_vm_running
    rw [if_neg hinit]
    have ht := pollLoop_timeout poll ip 180 20 180 0 0 rfl
      (fun k hk => by simpa using hall k (by omega))
    rw [ht]
  · intro j hj hrun hfail
    unfold ensure_vm_running
    rw [if_neg hinit]
    have hs := pollLoop_success poll ip 180 20 j 0 0 (by omega)
      (by simpa using hrun) (fun k hk => by simpa using hfail k hk)
    rw [hs]
    simp [settleTrace]

/-- Witness for C1: a non-running initial report against a poll oracle
that observes `running` on the first re-fetch. -/
theorem ensure_vm_running_poll_spec_witness :
    (ensure_vm_running pollRunningW "10.0.0.5" "u" "Stopped" 180 20).2.countP isStart
      = 1 ∧
    ((∀ i, i < 60 → observedRunning pollRunningW i = false) →
      ensure_vm_running pollRunningW "10.0.0.5" "u" "Stopped" 180 20 =
        (false, Eff.apiStartVm "u" :: mkPollTrace "10.0.0.5" 60)) ∧
    (∀ j, j < 60 → observedRunning pollRunningW j = true →
      (∀ i, i < j → observedRunning pollRunningW i = false) →
      ensure_vm_running pollRunningW "10.0.0.5" "u" "Stopped" 180 20 =
        (true, Eff.apiStartVm "u" ::
          (mkPollTrace "10.0.0.5" (j + 1) ++ [Eff.sleep 20]))) :=
  ensure_vm_running_poll_spec pollRunningW "10.0.0.5" "u" "Stopped" (by decide)

/-- C5: `get_vm_by_ip` returns `None` (not an error) on an absent or empty
`inventories` field, and the first record of the returned list otherwise. -/
theorem get_vm_by_ip_spec :
    get_vm_by_ip none = none ∧
    get_vm_by_ip (some []) = none ∧
    ∀ (l : List VMRec), get_vm_by_ip (some l) = l.head? := by
  refine ⟨rfl, rfl, ?_⟩
  intro l
  cases l <;> rfl

/-- C10: `get_root_install_path` scans the volume list in order, returning
the `installPath` of the first volume typed `Root` (later `Root` volumes,
if any, are ignored without any uniqueness check), and `none` when no
volume is typed `Root`. -/
theorem get_root_install_path_spec :
    (∀ (u n s : Option String) (pre post : List Volume) (v : Volume),
      (∀ x ∈ pre, ¬ x.type = some "Root") → v.type = some "Root" →
      get_root_install_path ⟨u, n, s, pre ++ v :: post⟩ = v.installPath) ∧
    (∀ vm : VMRec, (∀ x ∈ vm.allVolumes, ¬ x.type = some "Root") →
      get_root_install_path vm = none) := by
  constructor
  · intro u n s pre post v hpre hv
    exact findRootInstallPath_append pre v post hpre hv
  · intro vm h
    exact findRootInstallPath_none vm.allVolumes h

/-- Witness for C10: with two `Root` volumes the install path of the first
is returned, unchecked. -/
theorem get_root_install_path_spec_witness :
    get_root_install_path
      ⟨some "uuid-1", some "vm1", some "Running",
        [⟨some "Root", some "/data/a.img"⟩, ⟨some "Root", some "/data/b.img"⟩]⟩ =
      some "/data/a.img" := by
  have h := get_root_install_path_spec.1 (some "uuid-1") (some "vm1") (some "Running")
    [] [⟨some "Root", some "/data/b.img"⟩] ⟨some "Root", some "/data/a.img"⟩
    (by simp) rfl
  simpa using h

/-- C4: `SSHRunner.run` with attempt budget `retries` and interval
`interval`: failing the first `k < retries` attempts and succeeding on
attempt `k + 1` completes successfully with exactly `k` sleeps, each a
failed attempt followed by one `interval`-second sleep; when all attempts
fail the run fails with `retries - 1` sleeps, the final failed attempt not
followed by a sleep (the trace ends with the ssh attempt itself). -/
theorem SSHRunner_run_retry_spec (outcome : Nat → Bool) (ip cmd : String)
    (retries interval : Nat) :
    (∀ k, k < retries → (∀ i, 1 ≤ i → i ≤ k → outcome i = false) →
      outcome (k + 1) = true →
      SSHRunner.run outcome ip cmd retries interval =
        (true, mkSshTrace ip cmd interval k ++ [Eff.ssh ip cmd]) ∧
      (SSHRunner.run outcome ip cmd retries interval).2.countP isSleep = k) ∧
    (1 ≤ retries → (∀ i, 1 ≤ i → i ≤ retries → outcome i = false) →
      SSHRunner.run outcome ip cmd retries interval =
        (false, mkSshTrace ip cmd interval (retries - 1) ++ [Eff.ssh ip cmd]) ∧
      (SSHRunner.run outcome ip cmd retries interval).2.countP isSleep
        = retries - 1) := by
  constructor
  · intro k hk hfail hsucc
    have hgo := sshRunLoop_success outcome ip cmd retries interval k 1 retries
      (fun i hi1 hi2 => hfail i hi1 (by omega))
      (by rw [show 1 + k = k + 1 by omega]; exact hsucc) (by omega) hk
    unfold SSHRunner.run
    rw [hgo]
    exact ⟨rfl, mkSshTrace_countP_sleep ip cmd interval k⟩
  · intro h1 hfail
    have hgo := sshRunLoop_allFail outcome ip cmd retries interval retries 1
      h1 (by omega) (fun i hi1 hi2 => hfail i hi1 hi2)
    unfold SSHRunner.run
    rw [hgo]
    exact ⟨rfl, mkSshTrace_countP_sleep ip cmd interval (retries - 1)⟩

/-- Witness for C4: a command failing twice then succeeding, with attempt
budget 3 and interval 30, completes successfully having slept exactly
twice. -/
theorem SSHRunner_run_retry_spec_witness :
    SSHRunner.run (fun a => decide (3 ≤ a)) "10.0.0.5" "fstrim /" 3 30 =
      (true, mkSshTrace "10.0.0.5" "fstrim /" 30 2 ++ [Eff.ssh "10.0.0.5" "fstrim /"]) ∧
    (SSHRunner.run (fun a => decide (3 ≤ a)) "10.0.0.5" "fstrim /" 3 30).2.countP isSleep
      = 2 :=
  (SSHRunner_run_retry_spec (fun a => decide (3 ≤ a)) "10.0.0.5" "fstrim /" 3 30).1
    2 (by decide) (by decide) (by decide)

/-- C8: `build_qemu_env` yields an environment whose `LD_LIBRARY_PATH`
starts with the bundled library path — exactly the bundled path when the
inherited variable is unset or empty, and the bundled path prepended with a
`:` separator otherwise — and leaves every other variable at its inherited
value; the inherited environment itself (the `environ` argument, a copy of
which is modified) is not mutated, the function being a pure map from it to
the environment for the converter. -/
theorem build_qemu_env_spec (environ : String → Option String) (lp : String)
    (hlp : ¬ lp = "") :
    ((build_qemu_env environ (some lp) "LD_LIBRARY_PATH" = some lp ∧
        pyFalsy (environ "LD_LIBRARY_PATH") = true) ∨
      (∃ e, environ "LD_LIBRARY_PATH" = some e ∧ ¬ e = "" ∧
        build_qemu_env environ (some lp) "LD_LIBRARY_PATH" = some (lp ++ ":" ++ e))) ∧
    (∀ k, ¬ k = "LD_LIBRARY_PATH" → build_qemu_env environ (some lp) k = environ k) := by
  constructor
  · cases he : environ "LD_LIBRARY_PATH" with
    | none =>
      left
      refine ⟨?_, ?_⟩
      · simp [build_qemu_env, hlp, he]
      · simp [pyFalsy, he]
    | some e =>
      by_cases he2 : e = ""
      · left
        subst he2
        refine ⟨?_, ?_⟩
        · simp [build_qemu_env, hlp, he]
        · simp [pyFalsy, he]
      · right
        exact ⟨e, rfl, he2, by simp [build_qemu_env, hlp, he, he2]⟩
  · intro k hk
    simp [build_qemu_env, hlp, hk]

/-- Witness for C8: a concrete environment with a pre-existing
`LD_LIBRARY_PATH` and an unrelated variable. -/
theorem build_qemu_env_spec_witness :
    ((build_qemu_env (fun k => if k = "LD_LIBRARY_PATH" then some "/usr/lib" else none)
        (some "/opt/tool/lib") "LD_LIBRARY_PATH" = some "/opt/tool/lib" ∧
        pyFalsy ((fun k => if k = "LD_LIBRARY_PATH" then some "/usr/lib" else none)
          "LD_LIBRARY_PATH") = true) ∨
      (∃ e, (fun k => if k = "LD_LIBRARY_PATH" then some "/usr/lib" else none)
          "LD_LIBRARY_PATH" = some e ∧ ¬ e = "" ∧
        build_qemu_env (fun k => if k = "LD_LIBRARY_PATH" then some "/usr/lib" else none)
          (some "/opt/tool/lib") "LD_LIBRARY_PATH" = some ("/opt/tool/lib" ++ ":" ++ e))) ∧
    (∀ k, ¬ k = "LD_LIBRARY_PATH" →
      build_qemu_env (fun k => if k = "LD_LIBRARY_PATH" then some "/usr/lib" else none)
        (some "/opt/tool/lib") k =
        (fun k => if k = "LD_LIBRARY_PATH" then some "/usr/lib" else none) k) :=
  build_qemu_env_spec (fun k => if k = "LD_LIBRARY_PATH" then some "/usr/lib" else none)
    "/opt/tool/lib" (by decide)


/-! ## Helper lemmas: the hex digest format of `md5_file` -/

lemma wordToBytesLE_lt (x : Nat) : ∀ b ∈ wordToBytesLE x, b < 256 := by
  intro b hb
  simp only [wordToBytesLE, List.mem_cons, List.not_mem_nil, or_false] at hb
  rcases hb with rfl | rfl | rfl | rfl <;> omega

lemma md5Bytes_length (msg : List Nat) : (md5Bytes msg).length = 16 := by
  simp [md5Bytes, wordToBytesLE]

lemma md5Bytes_lt (msg : List Nat) : ∀ b ∈ md5Bytes msg, b < 256 := by
  intro b hb
  simp only [md5Bytes, List.mem_append] at hb
  rcases hb with ((h | h) | h) | h <;> exact wordToBytesLE_lt _ b h

lemma hexChar_isLowerHex : ∀ n, n < 16 → isLowerHexChar (hexChar n) := by decide

lemma bytesToHexChars_length (l : List Nat) :
    (bytesToHexChars l).length = 2 * l.length := by
  induction l with
  | nil => rfl
  | cons x xs ih =>
    simp only [bytesToHexChars, List.map_cons, List.flatten_cons, List.length_append,
      List.length_cons, List.length_nil, List.length_map] at *
    omega

lemma bytesToHexChars_mem (l : List Nat) (hl : ∀ b ∈ l, b < 256) :
    ∀ c ∈ bytesToHexChars l, isLowerHexChar c := by
  intro c hc
  simp only [bytesToHexChars, List.mem_flatten, List.mem_map] at hc
  obtain ⟨cs, ⟨b, hb, rfl⟩, hcs⟩ := hc
  have hblt := hl b hb
  simp only [List.mem_cons, List.not_mem_nil, or_false] at hcs
  rcases hcs with rfl | rfl
  · exact hexChar_isLowerHex (b / 16) (by omega)
  · exact hexChar_isLowerHex (b % 16) (by omega)

lemma md5_file_length (content : List Nat) : (md5_file content).length = 32 := by
  show (bytesToHexChars (md5Bytes content)).length = 32
  rw [bytesToHexChars_length, md5Bytes_length]

lemma md5_file_chars (content : List Nat) :
    ∀ c ∈ (md5_file content).data, isLowerHexChar c := by
  intro c hc
  exact bytesToHexChars_mem _ (md5Bytes_lt content) c hc

/-- C2: whenever the intermediate (`<product>.qcow2`) or final
(`<product>.vdi`) output path exists at the pre-export check, the run
aborts (`die`) and its whole effect trace contains no conversion, no file
write and no deletion — in particular neither existing file is modified. -/
theorem main_output_collision_spec (w : World)
    (hex : w.qcow2Exists = true ∨ w.vdiExists = true) :
    (mainRun w).1 = false ∧ ∀ e ∈ (mainRun w).2, nonArtifact e = true := by
  rcases mainRun_master w with h | ⟨hq, hv, _⟩
  · exact h
  · rcases hex with hx | hx
    · rw [hq] at hx; exact Bool.noConfusion hx
    · rw [hv] at hx; exact Bool.noConfusion hx

/-- Witness for C2: a world identical to the all-success one except that
the qcow2 output already exists. -/
theorem main_output_collision_spec_witness :
    (mainRun collisionWorld).1 = false ∧
    ∀ e ∈ (mainRun collisionWorld).2, nonArtifact e = true :=
  main_output_collision_spec collisionWorld (Or.inl rfl)

/-- C3: when the located VM record has a falsy uuid or a falsy root
install path (no `Root` volume, or a `None`/empty install path), the
pipeline dies at the Locate step: the trace holds at most the login and
the single inventory lookup — no power-on, no remote command, no
conversion, no file effect. -/
theorem main_missing_root_spec (w : World) (vm : VMRec)
    (hvm : get_vm_by_ip w.lookup = some vm)
    (hbad : pyFalsy vm.uuid = true ∨ pyFalsy (get_root_install_path vm) = true) :
    (mainRun w).1 = false ∧
    ∀ e ∈ (mainRun w).2, e = Eff.apiLogin ∨ e = Eff.apiGetVm w.ip := by
  unfold mainRun
  by_cases h1 : w.sshOk = false
  · rw [if_pos h1]; exact ⟨rfl, by simp⟩
  rw [if_neg h1]
  by_cases h2 : w.sshpassOk = false
  · rw [if_pos h2]; exact ⟨rfl, by simp⟩
  rw [if_neg h2]
  obtain hl | ⟨s, hl⟩ : w.loginUuid = none ∨ ∃ s, w.loginUuid = some s := by
    cases w.loginUuid
    · exact Or.inl rfl
    · exact Or.inr ⟨_, rfl⟩
  · simp only [hl]; exact ⟨by simp, by simp⟩
  simp only [hl, hvm]
  have hfal : (pyFalsy vm.uuid || pyFalsy (get_root_install_path vm)) = true := by
    rcases hbad with h | h <;> simp [h]
  rw [if_pos hfal]
  refine ⟨rfl, ?_⟩
  intro e he
  simpa using he

/-- Witness for C3: the located VM record has no `Root` volume at all. -/
theorem main_missing_root_spec_witness :
    (mainRun noRootWorld).1 = false ∧
    ∀ e ∈ (mainRun noRootWorld).2,
      e = Eff.apiLogin ∨ e = Eff.apiGetVm noRootWorld.ip :=
  main_missing_root_spec noRootWorld ⟨some "u", some "myvm", some "Stopped", []⟩
    rfl (Or.inr rfl)

/-- C6: `ensure_free_space` fails exactly when the free bytes are strictly
below the requirement (equality passes), and any run that invokes stage-2
conversion (qcow2 → vdi) has performed the re-check with required bytes
`max (qcow2 size) MIN_FREE_BYTES` and passed it. -/
theorem ensure_free_space_spec :
    (∀ free required, ensure_free_space free required = false ↔ free < required) ∧
    (∀ required, ensure_free_space required required = true) ∧
    (∀ (w : World) (src dst : String),
      Eff.convert src dst "qcow2" "vdi" ∈ (mainRun w).2 →
      Eff.checkSpace (max w.qcow2Size MIN_FREE_BYTES) "vdi conversion stage" ∈
        (mainRun w).2 ∧
      ensure_free_space w.free2 (max w.qcow2Size MIN_FREE_BYTES) = true) := by
  refine ⟨?_, ?_, ?_⟩
  · intro free required
    unfold ensure_free_space
    split <;> simp_all
  · intro required
    simp [ensure_free_space]
  · intro w src dst hmem
    rcases mainRun_master w with ⟨_, hben⟩ | ⟨_, _, vm, pre, _, hpre, htail⟩
    · have hb := hben _ hmem
      simp [nonArtifact] at hb
    · rcases htail with ⟨_, htr⟩ | ⟨_, htr, _⟩ | ⟨hok, htail2⟩
      · rw [htr] at hmem
        rcases List.mem_append.mp hmem with h | h
        · have hb := hpre _ h; simp [nonArtifact] at hb
        · simp only [List.mem_singleton] at h
          injection h with h1 h2 h3 h4
          exact absurd h4 (by decide)
      · rw [htr] at hmem
        rcases List.mem_append.mp hmem with h | h
        · have hb := hpre _ h; simp [nonArtifact] at hb
        · simp only [List.mem_cons, List.not_mem_nil, or_false] at h
          rcases h with h | h
          · injection h with h1 h2 h3 h4
            exact absurd h4 (by decide)
          · exact absurd h (by simp [recheckEff])
      · rcases htail2 with ⟨_, htr⟩ | ⟨_, htr⟩ <;>
          exact ⟨by rw [htr]; simp [recheckEff, List.mem_append], hok⟩

/-- Witness for C6: a reading strictly below the requirement fails; a
reading equal to the requirement passes. -/
theorem ensure_free_space_spec_witness :
    ensure_free_space 5 7 = false ∧ ensure_free_space 7 7 = true :=
  ⟨(ensure_free_space_spec.1 5 7).mpr (by decide), ensure_free_space_spec.2.1 7⟩

/-- C7: every successful run writes the sidecar `<final-name>.md5` whose
content is the MD5 hex digest of the bytes of the final artifact, two
spaces, the final file name, and a newline; the digest is 32 lowercase hex
characters, and recomputing `md5_file` over the artifact bytes yields
exactly the recorded digest (the recorded text embeds
`md5_file w.vdiBytes` itself). -/
theorem main_md5_sidecar_spec (w : World) (h : (mainRun w).1 = true) :
    ∃ name,
      Eff.writeFile (w.workdir ++ "/" ++ name ++ ".vdi" ++ ".md5")
        (md5_file w.vdiBytes ++ "  " ++ (name ++ ".vdi") ++ "\n") ∈ (mainRun w).2 ∧
      (md5_file w.vdiBytes).length = 32 ∧
      ∀ c ∈ (md5_file w.vdiBytes).data, isLowerHexChar c := by
  rcases mainRun_master w with ⟨hf, _⟩ | ⟨_, _, vm, pre, _, _, htail⟩
  · rw [h] at hf; exact Bool.noConfusion hf
  · rcases htail with ⟨hf, _⟩ | ⟨hf, _, _⟩ | ⟨_, ⟨hf, _⟩ | ⟨_, htr⟩⟩
    · rw [h] at hf; exact Bool.noConfusion hf
    · rw [h] at hf; exact Bool.noConfusion hf
    · rw [h] at hf; exact Bool.noConfusion hf
    · refine ⟨productNameOf w vm, ?_, md5_file_length w.vdiBytes,
        md5_file_chars w.vdiBytes⟩
      rw [htr]
      simp [sidecarEff, vdiPathOf, List.mem_append]

/-- Witness for C7: the all-success world, whose run ends in success. -/
theorem main_md5_sidecar_spec_witness :
    ∃ name,
      Eff.writeFile (baseWorld.workdir ++ "/" ++ name ++ ".vdi" ++ ".md5")
        (md5_file baseWorld.vdiBytes ++ "  " ++ (name ++ ".vdi") ++ "\n") ∈
        (mainRun baseWorld).2 ∧
      (md5_file baseWorld.vdiBytes).length = 32 ∧
      ∀ c ∈ (md5_file baseWorld.vdiBytes).data, isLowerHexChar c :=
  main_md5_sidecar_spec baseWorld rfl

/-- C9: when the product argument is omitted or empty and the display
name of the VM record is missing or empty, the product name falls back to
`vm_image` (no error), so a successful run converts to
`<workdir>/vm_image.qcow2` and `<workdir>/vm_image.vdi`. -/
theorem main_product_fallback_spec (w : World) (vm : VMRec)
    (hvm : get_vm_by_ip w.lookup = some vm)
    (hp : pyFalsy w.product = true) (hn : pyFalsy vm.name = true) :
    productNameOf w vm = "vm_image" ∧
    ((mainRun w).1 = true →
      Eff.convert (w.workdir ++ "/" ++ "vm_image" ++ ".qcow2")
        (w.workdir ++ "/" ++ "vm_image" ++ ".vdi") "qcow2" "vdi" ∈
        (mainRun w).2) := by
  have hinner : pyOrStr vm.name "vm_image" = "vm_image" := by
    rcases hnm : vm.name with _ | nm
    · rfl
    · rw [hnm] at hn
      simp only [pyFalsy, decide_eq_true_eq] at hn
      simp [pyOrStr, hn]
  have hpn : productNameOf w vm = "vm_image" := by
    rcases hw : w.product with _ | p
    · unfold productNameOf
      rw [hw]
      simpa [pyOrStr] using hinner
    · rw [hw] at hp
      simp only [pyFalsy, decide_eq_true_eq] at hp
      subst hp
      unfold productNameOf
      rw [hw]
      simpa [pyOrStr] using hinner
  refine ⟨hpn, ?_⟩
  intro hok
  rcases mainRun_master w with ⟨hf, _⟩ | ⟨_, _, vm2, pre, hvm2, _, htail⟩
  · rw [hok] at hf; exact Bool.noConfusion hf
  · rw [hvm] at hvm2
    injection hvm2 with hinj
    subst hinj
    rcases htail with ⟨hf, _⟩ | ⟨hf, _, _⟩ | ⟨_, ⟨hf, _⟩ | ⟨_, htr⟩⟩
    · rw [hok] at hf; exact Bool.noConfusion hf
    · rw [hok] at hf; exact Bool.noConfusion hf
    · rw [hok] at hf; exact Bool.noConfusion hf
    · rw [htr]
      simp [stage2Eff, qcow2PathOf, vdiPathOf, hpn, List.mem_append]

/-- Witness for C9: product argument omitted and VM display name absent in
the all-success world. -/
theorem main_product_fallback_spec_witness :
    productNameOf fallbackWorld
      ⟨some "u", none, some "Running", [⟨some "Root", some "/data/vm1.img"⟩]⟩ =
      "vm_image" ∧
    ((mainRun fallbackWorld).1 = true →
      Eff.convert (fallbackWorld.workdir ++ "/" ++ "vm_image" ++ ".qcow2")
        (fallbackWorld.workdir ++ "/" ++ "vm_image" ++ ".vdi") "qcow2" "vdi" ∈
        (mainRun fallbackWorld).2) :=
  main_product_fallback_spec fallbackWorld
    ⟨some "u", none, some "Running", [⟨some "Root", some "/data/vm1.img"⟩]⟩
    rfl rfl rfl
